import Mathlib

/-!
Shallow embedding of `nominatim/tools/database_import.py`: functions for
setting up and importing a new Nominatim database.

External effects (the `createdb` subprocess, database connections and
cursors, `psutil` memory statistics, `os.stat`, the filesystem) are
modelled as input "world" records; each function returns the trace of
effectful actions it performs together with its result, so that control
flow (which steps run, in which order, and which are skipped after an
error) is visible in the model.
-/

namespace DatabaseImport

/-- A PostgreSQL-style version tuple `(major, minor)`, as returned by
`conn.server_version_tuple()` and `conn.postgis_version_tuple()`. -/
abbrev VersionTuple := Nat × Nat

/-- Python tuple comparison `a < b` on pairs: lexicographic on
`(major, minor)`. -/
def tupleLt (a b : VersionTuple) : Bool :=
  decide (a.1 < b.1) || (decide (a.1 = b.1) && decide (a.2 < b.2))

/-- The `UsageError` exceptions raised in `database_import.py`, one
constructor per distinct message. `importerFailed` stands for the error
propagated out of the external `run_osm2pgsql` call (its module is not
part of this development; the failure case is modelled from the spec). -/
inductive UsageError where
  /-- 'Creating new database failed.' -/
  | creationFailed
  /-- 'PostgreSQL server is too old.' -/
  | postgresqlTooOld
  /-- 'Missing read-only user.' -/
  | missingReadOnlyUser
  /-- 'PostGIS version is too old.' -/
  | postgisTooOld
  /-- 'No data imported by osm2pgsql.' -/
  | noDataImported
  /-- failure reported by the external osm2pgsql process -/
  | importerFailed
  deriving DecidableEq, Repr

/-! ### create_db -/

/-- The external observations `create_db` depends on: the exit code of the
`createdb` subprocess, the server version reported by the connection, and
the result of the `pg_user` count query for a given user name. -/
structure CreateDbWorld where
  createdbReturncode : Int
  serverVersion : VersionTuple
  userCount : String → Nat

/-- The effectful steps `create_db` can perform, in the order the source
performs them. -/
inductive DbStep where
  | runCreatedb
  | queryServerVersion
  | queryUserCount (name : String)
  deriving DecidableEq, Repr

/-- Embedding of `create_db(dsn, rouser=None)`: runs `createdb`, checks the
returncode, then compares the server version against the required minimum
(a parameter here, `POSTGRESQL_REQUIRED_VERSION` in the source), and
finally — only when `rouser` is given — counts matching rows in `pg_user`.
Returns the trace of steps performed and the outcome. -/
def create_db (required : VersionTuple) (w : CreateDbWorld)
    (rouser : Option String) : List DbStep × Except UsageError Unit :=
  if w.createdbReturncode ≠ 0 then
    ([DbStep.runCreatedb], Except.error UsageError.creationFailed)
  else if tupleLt w.serverVersion required then
    ([DbStep.runCreatedb, DbStep.queryServerVersion],
     Except.error UsageError.postgresqlTooOld)
  else
    match rouser with
    | none => ([DbStep.runCreatedb, DbStep.queryServerVersion], Except.ok ())
    | some name =>
      if w.userCount name = 0 then
        ([DbStep.runCreatedb, DbStep.queryServerVersion,
          DbStep.queryUserCount name],
         Except.error UsageError.missingReadOnlyUser)
      else
        ([DbStep.runCreatedb, DbStep.queryServerVersion,
          DbStep.queryUserCount name], Except.ok ())

/-! ### setup_extensions -/

/-- The database state `setup_extensions` interacts with: the set of
installed extensions and the version that the PostGIS extension reports
(`conn.postgis_version_tuple()`). -/
structure DbState where
  extensions : List String
  postgisVersion : VersionTuple
  deriving DecidableEq, Repr

/-- `CREATE EXTENSION IF NOT EXISTS e`: adds the extension when missing,
does nothing (and does not fail) when it is already installed. -/
def createExtensionIfNotExists (e : String) (s : DbState) : DbState :=
  if e ∈ s.extensions then s else { s with extensions := e :: s.extensions }

/-- Embedding of `setup_extensions(conn)`: creates the `hstore` and
`postgis` extensions if missing, commits, then checks the reported PostGIS
version against the required minimum (a parameter here,
`POSTGIS_REQUIRED_VERSION` in the source). -/
def setup_extensions (required : VersionTuple) (s : DbState) :
    Except UsageError DbState :=
  let s1 := createExtensionIfNotExists "hstore" s
  let s2 := createExtensionIfNotExists "postgis" s1
  if tupleLt s2.postgisVersion required then
    Except.error UsageError.postgisTooOld
  else
    Except.ok s2

/-! ### install_module -/

/-- The filesystem observations `install_module` depends on:
`Path.exists()` for a path and `Path.samefile` between two paths. Paths
are modelled as strings joined with `/`. -/
structure Fs where
  pathExists : String → Bool
  samefile : String → String → Bool

/-- Joining of paths, `a / b` on `pathlib.Path`. -/
def pathJoin (a b : String) : String := a ++ "/" ++ b

/-- The filesystem actions `install_module` can perform. -/
inductive FsAction where
  | mkdir (dir : String)
  | copy (src dst : String)
  | chmod (file : String) (mode : Nat)
  deriving DecidableEq, Repr

/-- Python truthiness of the `module_dir` argument (default `None`; an
empty string is also falsy). -/
def truthy : Option String → Bool
  | none => false
  | some s => !s.isEmpty

/-- Embedding of `install_module(src_dir, project_dir, module_dir)`:
when `module_dir` is falsy the target is `project_dir / 'module'`; the
module binary is copied there (creating the directory if needed and
setting mode 0o755) unless the directory exists and is the same file as
`src_dir`. Returns the filesystem actions performed and the resolved
module directory. -/
def install_module (fs : Fs) (src_dir project_dir : String)
    (module_dir : Option String) : List FsAction × String :=
  if truthy module_dir then
    ([], module_dir.getD "")
  else
    let md := pathJoin project_dir "module"
    if !fs.pathExists md || !fs.samefile src_dir md then
      let mkdirActs := if !fs.pathExists md then [FsAction.mkdir md] else []
      let destfile := pathJoin md "nominatim.so"
      (mkdirActs ++
        [FsAction.copy (pathJoin src_dir "nominatim.so") destfile,
         FsAction.chmod destfile 0o755], md)
    else
      ([], md)

/-! ### import_osm_data -/

/-- The osm2pgsql options record mutated in place by `import_osm_data`.
`flatnode_file` is a string with `""` standing for an unset (falsy)
value; `osm2pgsql_cache = 0` means unset. -/
structure Osm2pgsqlOptions where
  import_file : String
  append : Bool
  threads : Nat
  flatnode_file : String
  osm2pgsql_cache : Nat
  dsn : String
  deriving DecidableEq, Repr

/-- The external observations `import_osm_data` depends on: `psutil`
memory statistics, `os.stat(file).st_size`, whether the external
`run_osm2pgsql` call succeeds, and the rowcount of the
`SELECT * FROM place LIMIT 1` query. -/
structure ImportWorld where
  memAvailable : Nat
  memCached : Nat
  fileSize : String → Nat
  osm2pgsqlOk : Bool
  placeRowcount : Nat

/-- The effectful actions `import_osm_data` can perform after preparing
the options record. -/
inductive ImportAction where
  | runOsm2pgsql (opts : Osm2pgsqlOptions)
  | queryPlace
  | dropTable (name : String)
  | unlink (file : String)
  deriving DecidableEq, Repr

/-- One rounding step of IEEE-754 binary64 on a positive rational:
round to nearest, ties to even, at 53 significant bits. The exponent is
left unbounded: overflow and subnormal loss, which CPython would turn
into OverflowError or gradual underflow far outside the ranges reached
here, are not modelled. -/
def roundPos (q : ℚ) : ℚ :=
  let s : ℤ := Int.log 2 q - 52
  let x : ℚ := q / 2 ^ s
  let n : ℤ := ⌊x⌋
  let n2 : ℤ :=
    if x - n < 1 / 2 then n
    else if 1 / 2 < x - n then n + 1
    else if n % 2 = 0 then n else n + 1
  (n2 : ℚ) * 2 ^ s

/-- Correct rounding of a rational to a binary64 value (unbounded
exponent), as CPython applies to every float arithmetic result, every
int-to-float conversion and every true division. -/
def roundQ (q : ℚ) : ℚ :=
  if q = 0 then 0
  else if q < 0 then -roundPos (-q)
  else roundPos q

/-- A non-negative rational exactly representable as a binary64 value
(unbounded exponent): a natural significand below 2^53 times a power of
two. -/
def FloatRep (q : ℚ) : Prop :=
  ∃ (n : ℕ) (s : ℤ), n < 2 ^ 53 ∧ q = (n : ℚ) * 2 ^ s

/-- The cache-size computation inside `import_osm_data`, line 142:
`int(min((mem.available + mem.cached) * 0.75, fsize * 2) / 1024 / 1024) + 1`,
modelled with CPython float64 semantics. The int sum `available + cached`
is exact and converted to float (one rounding); the multiplication by the
exactly representable float `0.75` rounds once more; `fsize * 2` stays an
exact int; `min` compares the exact values; each of the two divisions by
1024 (int/int true division or float/int division — both correctly
rounded) rounds once; `int()` of the non-negative result is the floor. -/
def estimateCacheSize (memAvailable memCached fsize : Nat) : Nat :=
  ⌊roundQ (roundQ (min
      (roundQ (roundQ ((memAvailable : ℚ) + (memCached : ℚ)) * 0.75))
      ((fsize : ℚ) * 2) / 1024) / 1024)⌋₊ + 1

/-- Unfolding equation for the estimator. -/
theorem estimateCacheSize_def (a c f : ℕ) :
    estimateCacheSize a c f =
      ⌊roundQ (roundQ (min (roundQ (roundQ ((a : ℚ) + (c : ℚ)) * 0.75))
        ((f : ℚ) * 2) / 1024) / 1024)⌋₊ + 1 := rfl

/-- The in-place mutation of `options` performed by `import_osm_data`
before it delegates to `run_osm2pgsql` (lines 129-143 of the source):
sets the input file, forces `append = False` and `threads = 1`, and fills
`osm2pgsql_cache` from the estimator when neither a flatnode file nor a
cache size is configured. -/
def finalizeOptions (w : ImportWorld) (osm_file : String)
    (options : Osm2pgsqlOptions) : Osm2pgsqlOptions :=
  let o := { options with
              import_file := osm_file, append := false, threads := 1 }
  if o.flatnode_file.isEmpty && o.osm2pgsql_cache == 0 then
    { o with osm2pgsql_cache :=
        estimateCacheSize w.memAvailable w.memCached (w.fileSize osm_file) }
  else
    o

/-- Result of `import_osm_data`: the trace of actions, the outcome, and
the final contents of the caller's `options` record (which the source
mutates in place, so it is observable on every path). -/
structure ImportResult where
  trace : List ImportAction
  result : Except UsageError Unit
  finalOptions : Osm2pgsqlOptions
  deriving Repr

/-- Embedding of `import_osm_data(osm_file, options, drop=False)`:
finalizes the options, runs osm2pgsql (failure of the external process,
whose module is not part of this development, is modelled from the spec
as `importerFailed` propagated unchanged), then checks that the `place`
table has at least one row, raising `noDataImported` otherwise; on
success, when `drop` is set, drops `planet_osm_nodes` and unlinks the
flatnode file if one is configured. -/
def import_osm_data (w : ImportWorld) (osm_file : String)
    (options : Osm2pgsqlOptions) (drop : Bool) : ImportResult :=
  let o := finalizeOptions w osm_file options
  if !w.osm2pgsqlOk then
    ⟨[ImportAction.runOsm2pgsql o],
     Except.error UsageError.importerFailed, o⟩
  else if w.placeRowcount = 0 then
    ⟨[ImportAction.runOsm2pgsql o, ImportAction.queryPlace],
     Except.error UsageError.noDataImported, o⟩
  else
    let dropActs :=
      if drop then [ImportAction.dropTable "planet_osm_nodes"] else []
    let unlinkActs :=
      if drop && !o.flatnode_file.isEmpty then
        [ImportAction.unlink o.flatnode_file]
      else []
    ⟨[ImportAction.runOsm2pgsql o, ImportAction.queryPlace] ++
       dropActs ++ unlinkActs, Except.ok (), o⟩

/-! ### Spec-side definitions (for refinement claims) -/

/-- Modelled from the spec: the CacheSizeEstimator formula
`cacheSizeMB = floor( min( (availableMemoryBytes + cachedMemoryBytes) * 0.75, inputFileSizeBytes * 2 ) / (1024*1024) ) + 1`. -/
def cacheSizeMB_spec (available cached fsize : Nat) : Nat :=
  ⌊min (((available : ℚ) + (cached : ℚ)) * 0.75)
      ((fsize : ℚ) * 2) / (1024 * 1024)⌋₊ + 1

/-! ### Helper lemmas -/

/-- The spec formula, characterized by exact natural-number
arithmetic. -/
theorem cacheSizeMB_spec_eq_natDiv (a c f : Nat) :
    cacheSizeMB_spec a c f = min (3 * (a + c)) (8 * f) / 4194304 + 1 := by
  unfold cacheSizeMB_spec
  rw [← div_div]
  have h : min (((a : ℚ) + (c : ℚ)) * 0.75) ((f : ℚ) * 2) / 1024 / 1024
      = ((min (3 * (a + c)) (8 * f) : ℕ) : ℚ) / ((4194304 : ℕ) : ℚ) := by
    rw [Nat.cast_min, div_div]
    push_cast
    rw [show ((0.75 : ℚ)) = 3 / 4 from by norm_num]
    rcases le_total (((a : ℚ) + c) * (3 / 4)) ((f : ℚ) * 2) with hle | hle
    · rw [min_eq_left hle,
        min_eq_left (show (3 : ℚ) * (a + c) ≤ 8 * f from by linarith)]
      ring
    · rw [min_eq_right hle,
        min_eq_right (show (8 : ℚ) * f ≤ 3 * (a + c) from by linarith)]
      ring
  rw [h, Nat.floor_div_nat, Nat.floor_natCast]

/-- A positive representable rational rounds to itself. -/
theorem roundPos_eq_self {n : ℕ} {t : ℤ} (hn0 : 0 < n) (hn : n < 2 ^ 53) :
    roundPos ((n : ℚ) * 2 ^ t) = (n : ℚ) * 2 ^ t := by
  have h2 : (0 : ℚ) < 2 := by norm_num
  have hqpos : 0 < (n : ℚ) * 2 ^ t :=
    mul_pos (by exact_mod_cast hn0) (zpow_pos h2 t)
  have hlog : Int.log 2 ((n : ℚ) * 2 ^ t) < t + 53 := by
    rw [← Int.lt_zpow_iff_log_lt (by norm_num) hqpos]
    push_cast
    calc (n : ℚ) * 2 ^ t < 2 ^ (53 : ℕ) * 2 ^ t :=
          mul_lt_mul_of_pos_right (by exact_mod_cast hn) (zpow_pos h2 t)
      _ = 2 ^ (t + 53) := by
          rw [← zpow_natCast (2 : ℚ) 53, ← zpow_add₀ (ne_of_gt h2)]
          congr 1
          omega
  simp only [roundPos]
  set L := Int.log 2 ((n : ℚ) * 2 ^ t) with hLdef
  set k := (t + 52 - L).toNat with hkdef
  have hk : ((k : ℤ)) = t + 52 - L := Int.toNat_of_nonneg (by omega)
  have hxnat : ((n * 2 ^ k : ℕ) : ℚ) = (n : ℚ) * 2 ^ (t + 52 - L) := by
    push_cast
    rw [← zpow_natCast (2 : ℚ) k, hk]
  have hx : (n : ℚ) * 2 ^ t / 2 ^ (L - 52) = (n : ℚ) * 2 ^ (t + 52 - L) := by
    rw [div_eq_iff (ne_of_gt (zpow_pos h2 _)), mul_assoc,
      ← zpow_add₀ (ne_of_gt h2)]
    congr 1
    congr 1
    omega
  rw [hx, ← hxnat, Int.floor_natCast]
  simp only [Int.cast_natCast, sub_self]
  rw [if_pos (by norm_num : (0 : ℚ) < 1 / 2)]
  push_cast
  rw [← zpow_natCast (2 : ℚ) k, hk, mul_assoc, ← zpow_add₀ (ne_of_gt h2)]
  congr 1
  congr 1
  omega

/-- Representable values are non-negative. -/
theorem FloatRep.nonneg {q : ℚ} (h : FloatRep q) : 0 ≤ q := by
  obtain ⟨n, s, -, rfl⟩ := h
  positivity

/-- Dividing a representable value by 1024 shifts the exponent and keeps
it representable. -/
theorem floatRep_div_1024 {q : ℚ} (h : FloatRep q) : FloatRep (q / 1024) := by
  obtain ⟨n, s, hn, rfl⟩ := h
  refine ⟨n, s - 10, hn, ?_⟩
  rw [zpow_sub₀ (by norm_num : (2 : ℚ) ≠ 0)]
  rw [show ((2 : ℚ) ^ (10 : ℤ)) = 1024 by norm_num]
  ring

/-- Correct rounding fixes every representable value. -/
theorem roundQ_eq_self {q : ℚ} (h : FloatRep q) : roundQ q = q := by
  obtain ⟨n, s, hn, rfl⟩ := h
  rcases Nat.eq_zero_or_pos n with hz | hpos
  · subst hz
    simp [roundQ]
  · have hqpos : 0 < (n : ℚ) * 2 ^ s :=
      mul_pos (by exact_mod_cast hpos) (zpow_pos (by norm_num) s)
    rw [roundQ, if_neg (ne_of_gt hqpos), if_neg (not_lt_of_gt hqpos)]
    exact roundPos_eq_self hpos hn

/-- Rounding a positive rational yields a representable value. -/
theorem floatRep_roundPos {q : ℚ} (hq : 0 < q) : FloatRep (roundPos q) := by
  have h2 : (0 : ℚ) < 2 := by norm_num
  simp only [roundPos]
  set L := Int.log 2 q with hLdef
  set x := q / 2 ^ (L - 52) with hxdef
  have hxpos : 0 < x := div_pos hq (zpow_pos h2 _)
  have hxlt : x < 2 ^ 53 := by
    rw [hxdef, div_lt_iff₀ (zpow_pos h2 _)]
    calc q < 2 ^ (L + 1) := by
          rw [hLdef]
          exact_mod_cast Int.lt_zpow_succ_log_self (by norm_num) q
      _ = 2 ^ (53 : ℕ) * 2 ^ (L - 52) := by
          rw [← zpow_natCast (2 : ℚ) 53, ← zpow_add₀ (ne_of_gt h2)]
          congr 1
          omega
  have hn0 : 0 ≤ ⌊x⌋ := Int.floor_nonneg.mpr hxpos.le
  have hnlt : ⌊x⌋ < 2 ^ 53 := by
    rw [Int.floor_lt]
    exact_mod_cast hxlt
  set n2 : ℤ := if x - ⌊x⌋ < 1 / 2 then ⌊x⌋
    else if 1 / 2 < x - ⌊x⌋ then ⌊x⌋ + 1
    else if ⌊x⌋ % 2 = 0 then ⌊x⌋ else ⌊x⌋ + 1 with hn2def
  have hcases : n2 = ⌊x⌋ ∨ n2 = ⌊x⌋ + 1 := by
    rw [hn2def]
    split
    · exact Or.inl rfl
    split
    · exact Or.inr rfl
    split
    · exact Or.inl rfl
    · exact Or.inr rfl
  have hn2nonneg : 0 ≤ n2 := by rcases hcases with h | h <;> omega
  rw [show ((2 : ℤ) ^ 53) = 9007199254740992 by norm_num] at hnlt
  by_cases htop : n2 = 9007199254740992
  · refine ⟨2 ^ 52, L - 51, by norm_num, ?_⟩
    rw [htop,
      show ((9007199254740992 : ℤ) : ℚ) = ((2 ^ 52 : ℕ) : ℚ) * 2 by
        push_cast; norm_num,
      mul_assoc, show (L - 51) = 1 + (L - 52) by omega,
      zpow_add₀ (ne_of_gt h2), zpow_one]
  · refine ⟨n2.toNat, L - 52, ?_, ?_⟩
    · have : n2 < 9007199254740992 := by rcases hcases with h | h <;> omega
      omega
    · congr 1
      exact_mod_cast (Int.toNat_of_nonneg hn2nonneg).symm

/-- Rounding a non-negative rational yields a representable value. -/
theorem floatRep_roundQ {q : ℚ} (hq : 0 ≤ q) : FloatRep (roundQ q) := by
  rcases eq_or_lt_of_le hq with hz | hpos
  · rw [roundQ, if_pos hz.symm]
    exact ⟨0, 0, by norm_num, by norm_num⟩
  · rw [roundQ, if_neg (ne_of_gt hpos), if_neg (not_lt_of_gt hpos)]
    exact floatRep_roundPos hpos

/-- The binade exponent is pinned by two-sided power bounds. -/
theorem int_log_eq_of_bounds {q : ℚ} {e : ℤ} (h1 : (2 : ℚ) ^ e ≤ q)
    (h2 : q < (2 : ℚ) ^ (e + 1)) : Int.log 2 q = e := by
  have hq : 0 < q := lt_of_lt_of_le (zpow_pos (by norm_num) e) h1
  have hle : e ≤ Int.log 2 q := by
    rw [← Int.zpow_le_iff_le_log (by norm_num) hq]
    exact_mod_cast h1
  have hlt : Int.log 2 q < e + 1 := by
    rw [← Int.lt_zpow_iff_log_lt (by norm_num) hq]
    exact_mod_cast h2
  omega

/-- The one genuine rounding in the divergence run: (2^60 - 2)/1024 has
exact value 2^50 - 2^-9, whose 53-bit round-to-nearest is 2^50. -/
theorem roundQ_tieStep :
    roundQ ((1152921504606846974 : ℚ) / 1024) = 1125899906842624 := by
  have hne : ((1152921504606846974 : ℚ) / 1024) ≠ 0 := by norm_num
  have hnlt : ¬((1152921504606846974 : ℚ) / 1024) < 0 := by norm_num
  rw [roundQ, if_neg hne, if_neg hnlt]
  have hlog : Int.log 2 ((1152921504606846974 : ℚ) / 1024) = 49 := by
    apply int_log_eq_of_bounds
    · rw [show (49 : ℤ) = ((49 : ℕ) : ℤ) by norm_num, zpow_natCast]
      norm_num
    · rw [show (49 : ℤ) + 1 = ((50 : ℕ) : ℤ) by norm_num, zpow_natCast]
      norm_num
  simp only [roundPos, hlog]
  have hpow : (2 : ℚ) ^ ((49 : ℤ) - 52) = 1 / 8 := by
    rw [show ((49 : ℤ) - 52) = -((3 : ℕ) : ℤ) by norm_num, zpow_neg,
      zpow_natCast]
    norm_num
  have hx : (1152921504606846974 : ℚ) / 1024 / 2 ^ ((49 : ℤ) - 52)
      = 9007199254740992 - 1 / 64 := by
    rw [hpow]
    norm_num
  rw [hx]
  have hfl : ⌊(9007199254740992 - 1 / 64 : ℚ)⌋ = 9007199254740991 := by
    rw [Int.floor_eq_iff]
    constructor
    · push_cast
      norm_num
    · push_cast
      norm_num
  rw [hfl]
  rw [if_neg (by push_cast; norm_num), if_pos (by push_cast; norm_num),
    hpow]
  push_cast
  norm_num

/-- On inputs whose intermediate values all stay below 53 significant
bits, the float64 estimator computes the exact rational formula. -/
theorem estimateCacheSize_exact {a c f : ℕ} (hac : a + c < 2 ^ 51)
    (hf : f < 2 ^ 52) :
    estimateCacheSize a c f =
      ⌊min (((a : ℚ) + (c : ℚ)) * 0.75) ((f : ℚ) * 2) / 1024 / 1024⌋₊
        + 1 := by
  have h1 : FloatRep ((a : ℚ) + (c : ℚ)) := by
    refine ⟨a + c, 0, lt_of_lt_of_le hac (by norm_num), ?_⟩
    push_cast
    ring
  have h2 : FloatRep (((a : ℚ) + (c : ℚ)) * 0.75) := by
    refine ⟨3 * (a + c), -2, ?_, ?_⟩
    · calc 3 * (a + c) < 3 * 2 ^ 51 := by omega
        _ ≤ 2 ^ 53 := by norm_num
    · push_cast
      rw [show ((-2 : ℤ)) = -((2 : ℕ) : ℤ) by norm_num, zpow_neg,
        zpow_natCast, show (0.75 : ℚ) = 3 / 4 by norm_num]
      ring
  have h3 : FloatRep ((f : ℚ) * 2) := by
    refine ⟨2 * f, 0, by omega, ?_⟩
    push_cast
    ring
  have hm : FloatRep (min (((a : ℚ) + (c : ℚ)) * 0.75) ((f : ℚ) * 2)) := by
    rcases le_total ((((a : ℚ) + (c : ℚ)) * 0.75)) ((f : ℚ) * 2) with h | h
    · rw [min_eq_left h]
      exact h2
    · rw [min_eq_right h]
      exact h3
  rw [estimateCacheSize_def, roundQ_eq_self h1, roundQ_eq_self h2,
    roundQ_eq_self (floatRep_div_1024 hm),
    roundQ_eq_self (floatRep_div_1024 (floatRep_div_1024 hm))]

/-- For a 1024-byte file the file-size bound 2048 caps the cache at
floor(2048/2^20) + 1 = 1 whatever the (in-range) available memory. -/
theorem estimateCacheSize_tiny (a : ℕ) (_ha : a < 2 ^ 1023) :
    estimateCacheSize a 0 1024 = 1 := by
  rw [estimateCacheSize_def, Nat.cast_zero, add_zero,
    show (((1024 : ℕ) : ℚ) * 2) = 2048 by norm_num]
  have hprod : FloatRep (roundQ (roundQ ((a : ℚ)) * 0.75)) :=
    floatRep_roundQ (mul_nonneg
      (FloatRep.nonneg (floatRep_roundQ (Nat.cast_nonneg a)))
      (by norm_num))
  rcases le_total (roundQ (roundQ ((a : ℚ)) * 0.75)) 2048 with h | h
  · rw [min_eq_left h, roundQ_eq_self (floatRep_div_1024 hprod),
      roundQ_eq_self (floatRep_div_1024 (floatRep_div_1024 hprod))]
    have h0 : ⌊roundQ (roundQ ((a : ℚ)) * 0.75) / 1024 / 1024⌋₊ = 0 := by
      rw [Nat.floor_eq_zero, div_div]
      calc roundQ (roundQ ((a : ℚ)) * 0.75) / (1024 * 1024)
          ≤ 2048 / (1024 * 1024) := by gcongr
        _ < 1 := by norm_num
    rw [h0]
  · rw [min_eq_right h, show ((2048 : ℚ) / 1024) = 2 by norm_num,
      roundQ_eq_self (⟨2, 0, by norm_num, by push_cast; norm_num⟩ :
        FloatRep (2 : ℚ)),
      show ((2 : ℚ) / 1024) = 1 / 512 by norm_num,
      roundQ_eq_self (⟨1, -9, by norm_num, ?_⟩ : FloatRep (1 / 512 : ℚ)),
      show ⌊(1 / 512 : ℚ)⌋₊ = 0 by rw [Nat.floor_eq_zero]; norm_num]
    rw [show ((-9 : ℤ)) = -((9 : ℕ) : ℤ) by norm_num, zpow_neg,
      zpow_natCast]
    push_cast
    norm_num

/-- The float64 estimator evaluated at the divergence input
available = 2^62, cached = 0, fileSize = 2^59 - 1. -/
theorem counterexample_eval :
    estimateCacheSize 4611686018427387904 0 576460752303423487 =
      1099511627777 := by
  have hrep1 : FloatRep (4611686018427387904 : ℚ) := by
    refine ⟨1, 62, by norm_num, ?_⟩
    rw [show ((62 : ℤ)) = ((62 : ℕ) : ℤ) by norm_num, zpow_natCast]
    push_cast
    norm_num
  have hrep2 : FloatRep (3458764513820540928 : ℚ) := by
    refine ⟨3, 60, by norm_num, ?_⟩
    rw [show ((60 : ℤ)) = ((60 : ℕ) : ℤ) by norm_num, zpow_natCast]
    push_cast
    norm_num
  have hrep3 : FloatRep (1099511627776 : ℚ) := by
    refine ⟨1, 40, by norm_num, ?_⟩
    rw [show ((40 : ℤ)) = ((40 : ℕ) : ℤ) by norm_num, zpow_natCast]
    push_cast
    norm_num
  have hle : (1152921504606846974 : ℚ) ≤ 3458764513820540928 := by
    norm_num
  rw [estimateCacheSize_def]
  rw [show (((4611686018427387904 : ℕ) : ℚ) + ((0 : ℕ) : ℚ))
      = 4611686018427387904 by norm_num]
  rw [roundQ_eq_self hrep1]
  rw [show ((4611686018427387904 : ℚ) * 0.75) = 3458764513820540928 by
      norm_num]
  rw [roundQ_eq_self hrep2]
  rw [show (((576460752303423487 : ℕ) : ℚ) * 2) = 1152921504606846974 by
      norm_num]
  rw [show (min (3458764513820540928 : ℚ) 1152921504606846974)
      = 1152921504606846974 from min_eq_right hle]
  rw [roundQ_tieStep]
  rw [show ((1125899906842624 : ℚ) / 1024) = 1099511627776 by norm_num]
  rw [roundQ_eq_self hrep3]
  rw [show ((1099511627776 : ℚ)) = (((1099511627776 : ℕ) : ℚ)) by
      norm_num]
  rw [Nat.floor_natCast]

/-- Python tuple `<` agrees with the lexicographic order on pairs. -/
theorem tupleLt_iff_lex (a b : VersionTuple) :
    tupleLt a b = true ↔ Prod.Lex (· < ·) (· < ·) a b := by
  simp [tupleLt, Prod.lex_def]

/-- `CREATE EXTENSION IF NOT EXISTS` does not change the reported PostGIS
version. -/
theorem createExtensionIfNotExists_postgisVersion (e : String)
    (s : DbState) :
    (createExtensionIfNotExists e s).postgisVersion = s.postgisVersion := by
  unfold createExtensionIfNotExists
  split <;> rfl

/-- A non-empty string is not `isEmpty`. -/
theorem isEmpty_false_of_ne (s : String) (h : s ≠ "") :
    s.isEmpty = false := by
  rw [Bool.eq_false_iff]
  intro hh
  exact h ((String.isEmpty_iff s).mp hh)

/-- On every path, the final contents of the options record are the ones
produced by the pre-delegation mutation. -/
theorem import_osm_data_finalOptions (w : ImportWorld) (f : String)
    (o : Osm2pgsqlOptions) (drop : Bool) :
    (import_osm_data w f o drop).finalOptions = finalizeOptions w f o := by
  unfold import_osm_data
  split
  · rfl
  · split <;> rfl

/-- A world with importer success and an empty `place` table, used as a
concrete witness input. -/
def emptyPlaceWorld : ImportWorld :=
  ⟨8000000000, 0, fun _ => 1000000000, true, 0⟩

/-- A world with importer success and a non-empty `place` table, used as
a concrete witness input. -/
def goodWorld : ImportWorld :=
  ⟨8000000000, 0, fun _ => 1000000000, true, 1⟩

/-- A default options record, used as a concrete witness input. -/
def sampleOptions : Osm2pgsqlOptions :=
  ⟨"", false, 0, "", 0, "dbname=nominatim"⟩

/-! ### Claim theorems -/

/-- C1 counterexample: at available = 2^62, cached = 0,
fileSize = 2^59 - 1 the float64 computation of the code yields
1099511627777 while the exact floor formula of the claim yields
1099511627776, so the claimed universal equality fails. -/
theorem estimateCacheSize_float_divergence :
    estimateCacheSize 4611686018427387904 0 576460752303423487 =
      1099511627777 ∧
    cacheSizeMB_spec 4611686018427387904 0 576460752303423487 =
      1099511627776 ∧
    estimateCacheSize 4611686018427387904 0 576460752303423487 ≠
      cacheSizeMB_spec 4611686018427387904 0 576460752303423487 := by
  have h1 := counterexample_eval
  have h2 : cacheSizeMB_spec 4611686018427387904 0 576460752303423487 =
      1099511627776 := by
    rw [cacheSizeMB_spec_eq_natDiv]
    norm_num
  exact ⟨h1, h2, by rw [h1, h2]; norm_num⟩

/-- C1 (amended): whenever every intermediate value stays exactly
representable in float64 — in particular for
availableMemoryBytes + cachedMemoryBytes < 2^51 and
inputFileSizeBytes < 2^52 — the cache size computed by the estimator
inside import_osm_data equals
`floor(min((available + cached) * 0.75, fileSize * 2) / (1024*1024)) + 1`;
for available=8000000000, cached=0, fileSize=1000000000 the result is
1908, and for fileSize=1024 the result is 1 for every available memory
below the float-conversion overflow threshold 2^1023. -/
theorem estimateCacheSize_matches_spec_small :
    (∀ a c f : ℕ, a + c < 2 ^ 51 → f < 2 ^ 52 →
      estimateCacheSize a c f = cacheSizeMB_spec a c f) ∧
    estimateCacheSize 8000000000 0 1000000000 = 1908 ∧
    (∀ a : ℕ, a < 2 ^ 1023 → estimateCacheSize a 0 1024 = 1) := by
  have hgen : ∀ a c f : ℕ, a + c < 2 ^ 51 → f < 2 ^ 52 →
      estimateCacheSize a c f = cacheSizeMB_spec a c f := by
    intro a c f hac hf
    rw [estimateCacheSize_exact hac hf]
    unfold cacheSizeMB_spec
    rw [div_div]
  refine ⟨hgen, ?_, fun a ha => estimateCacheSize_tiny a ha⟩
  rw [hgen 8000000000 0 1000000000 (by norm_num) (by norm_num),
    cacheSizeMB_spec_eq_natDiv]
  norm_num

/-- C1 witness: the in-range instances, with the bounds discharged at
concrete inputs. -/
theorem estimateCacheSize_matches_spec_small_witness :
    (8000000000 + 0 < 2 ^ 51 ∧ 1000000000 < 2 ^ 52 ∧
      estimateCacheSize 8000000000 0 1000000000 =
        cacheSizeMB_spec 8000000000 0 1000000000) ∧
    (1000000 < 2 ^ 1023 ∧ estimateCacheSize 1000000 0 1024 = 1) :=
  ⟨⟨by norm_num, by norm_num,
    estimateCacheSize_matches_spec_small.1 8000000000 0 1000000000
      (by norm_num) (by norm_num)⟩,
   ⟨by norm_num, estimateCacheSize_matches_spec_small.2.2 1000000
      (by norm_num)⟩⟩

/-- C2: the version check fails with a version-too-old error if and only
if the actual version is below the required one under lexicographic tuple
comparison on (major, minor), and succeeds otherwise; this holds for both
the PostgreSQL check in create_db and the PostGIS check in
setup_extensions; (9,5) vs (10,0) fails while (10,0) vs (9,5) succeeds. -/
theorem version_check_lex :
    (∀ a r : VersionTuple,
      tupleLt a r = true ↔ Prod.Lex (· < ·) (· < ·) a r) ∧
    (∀ (req : VersionTuple) (w : CreateDbWorld) (rouser : Option String),
      w.createdbReturncode = 0 →
      ((create_db req w rouser).2 = Except.error UsageError.postgresqlTooOld
        ↔ Prod.Lex (· < ·) (· < ·) w.serverVersion req)) ∧
    (∀ (req : VersionTuple) (s : DbState),
      ((setup_extensions req s = Except.error UsageError.postgisTooOld)
        ↔ Prod.Lex (· < ·) (· < ·) s.postgisVersion req)) ∧
    tupleLt (9, 5) (10, 0) = true ∧ tupleLt (10, 0) (9, 5) = false := by
  refine ⟨tupleLt_iff_lex, ?_, ?_, by decide, by decide⟩
  · intro req w rouser h0
    rw [← tupleLt_iff_lex]
    unfold create_db
    rw [if_neg (by simp [h0])]
    by_cases h : tupleLt w.serverVersion req
    · simp [h]
    · simp only [h, Bool.false_eq_true, if_false]
      cases rouser with
      | none => simp
      | some name =>
        by_cases hc : w.userCount name = 0 <;> simp [hc]
  · intro req s
    rw [← tupleLt_iff_lex]
    unfold setup_extensions
    simp only [createExtensionIfNotExists_postgisVersion]
    by_cases h : tupleLt s.postgisVersion req <;> simp [h]

/-- C2 witness: a concrete too-old server version is rejected by
create_db. -/
theorem version_check_lex_witness :
    (create_db (10, 0) ⟨0, (9, 5), fun _ => 1⟩ none).2 =
      Except.error UsageError.postgresqlTooOld :=
  (version_check_lex.2.1 (10, 0) ⟨0, (9, 5), fun _ => 1⟩ none rfl).mpr
    ((tupleLt_iff_lex (9, 5) (10, 0)).mp (by decide))

/-- C3: install_module with no override follows the decision tree on
`projectDir/module`: if the directory does not exist it is created and
`nominatim.so` is copied into it with mode 0o755 set; if it exists and is
not the same physical location as the source directory the file is
(re)copied; if it exists and is the same physical location as the source
directory no copy occurs at all. -/
theorem install_module_decision_tree (fs : Fs)
    (src_dir project_dir : String) :
    (fs.pathExists (pathJoin project_dir "module") = false →
      install_module fs src_dir project_dir none =
        ([FsAction.mkdir (pathJoin project_dir "module"),
          FsAction.copy (pathJoin src_dir "nominatim.so")
            (pathJoin (pathJoin project_dir "module") "nominatim.so"),
          FsAction.chmod
            (pathJoin (pathJoin project_dir "module") "nominatim.so")
            0o755],
         pathJoin project_dir "module")) ∧
    (fs.pathExists (pathJoin project_dir "module") = true →
      fs.samefile src_dir (pathJoin project_dir "module") = false →
      install_module fs src_dir project_dir none =
        ([FsAction.copy (pathJoin src_dir "nominatim.so")
            (pathJoin (pathJoin project_dir "module") "nominatim.so"),
          FsAction.chmod
            (pathJoin (pathJoin project_dir "module") "nominatim.so")
            0o755],
         pathJoin project_dir "module")) ∧
    (fs.pathExists (pathJoin project_dir "module") = true →
      fs.samefile src_dir (pathJoin project_dir "module") = true →
      install_module fs src_dir project_dir none =
        ([], pathJoin project_dir "module")) := by
  refine ⟨?_, ?_, ?_⟩
  · intro h
    simp [install_module, truthy, h]
  · intro h1 h2
    simp [install_module, truthy, h1, h2]
  · intro h1 h2
    simp [install_module, truthy, h1, h2]

/-- C3 witness: on a filesystem where the module directory does not
exist, install_module creates it and copies the binary with mode 0o755. -/
theorem install_module_decision_tree_witness :
    install_module ⟨fun _ => false, fun _ _ => false⟩ "srcdir" "projdir"
        none =
      ([FsAction.mkdir (pathJoin "projdir" "module"),
        FsAction.copy (pathJoin "srcdir" "nominatim.so")
          (pathJoin (pathJoin "projdir" "module") "nominatim.so"),
        FsAction.chmod
          (pathJoin (pathJoin "projdir" "module") "nominatim.so") 0o755],
       pathJoin "projdir" "module") :=
  (install_module_decision_tree ⟨fun _ => false, fun _ _ => false⟩
    "srcdir" "projdir").1 rfl

/-- C10: install_module's return value is determined solely by its
arguments: the override path verbatim whenever the override is non-empty,
and `projectDir/module` otherwise, in every branch of the decision tree
including the skip-copy branch. -/
theorem install_module_return_value :
    (∀ (fs : Fs) (src_dir project_dir d : String), d ≠ "" →
      (install_module fs src_dir project_dir (some d)).2 = d) ∧
    (∀ (fs : Fs) (src_dir project_dir : String) (od : Option String),
      truthy od = false →
      (install_module fs src_dir project_dir od).2 =
        pathJoin project_dir "module") := by
  constructor
  · intro fs src_dir project_dir d hd
    have ht : truthy (some d) = true := by
      have h2 : d.isEmpty = false := by
        rw [Bool.eq_false_iff]
        intro h
        exact hd ((String.isEmpty_iff d).mp h)
      simp [truthy, h2]
    simp [install_module, ht]
  · intro fs src_dir project_dir od ho
    simp only [install_module, ho, Bool.false_eq_true, if_false]
    split <;> rfl

/-- C10 witness: a non-empty override is returned verbatim, and with no
override the project module directory is returned. -/
theorem install_module_return_value_witness :
    (install_module ⟨fun _ => true, fun _ _ => true⟩ "s" "p"
      (some "custom")).2 = "custom" ∧
    (install_module ⟨fun _ => true, fun _ _ => true⟩ "s" "p" none).2 =
      pathJoin "p" "module" :=
  ⟨install_module_return_value.1 ⟨fun _ => true, fun _ _ => true⟩ "s" "p"
      "custom" (by decide),
   install_module_return_value.2 ⟨fun _ => true, fun _ _ => true⟩ "s" "p"
      none rfl⟩

/-- C4: after the external importer reports success, import_osm_data
queries the place table; if that query returns zero rows it fails with
the no-data-imported error rather than returning success. -/
theorem import_osm_data_noData (w : ImportWorld) (osm_file : String)
    (options : Osm2pgsqlOptions) (drop : Bool) :
    w.osm2pgsqlOk = true → w.placeRowcount = 0 →
    ImportAction.queryPlace ∈ (import_osm_data w osm_file options drop).trace ∧
    (import_osm_data w osm_file options drop).result =
      Except.error UsageError.noDataImported := by
  intro h1 h2
  simp [import_osm_data, h1, h2]

/-- C4 witness: a concrete run with a successful importer and an empty
place table raises the no-data-imported error. -/
theorem import_osm_data_noData_witness :
    ImportAction.queryPlace ∈
      (import_osm_data emptyPlaceWorld "planet.osm" sampleOptions
        false).trace ∧
    (import_osm_data emptyPlaceWorld "planet.osm" sampleOptions
        false).result = Except.error UsageError.noDataImported :=
  import_osm_data_noData emptyPlaceWorld "planet.osm" sampleOptions false
    rfl rfl

/-- C9: when the no-data-imported error is raised, no cleanup happens
even when the drop flag is set: the planet_osm_nodes table is not dropped
and the flatnode file is not deleted. -/
theorem import_osm_data_noData_no_cleanup (w : ImportWorld)
    (osm_file : String) (options : Osm2pgsqlOptions) (drop : Bool) :
    w.osm2pgsqlOk = true → w.placeRowcount = 0 →
    (import_osm_data w osm_file options drop).result =
      Except.error UsageError.noDataImported ∧
    (∀ n, ImportAction.dropTable n ∉
      (import_osm_data w osm_file options drop).trace) ∧
    (∀ p, ImportAction.unlink p ∉
      (import_osm_data w osm_file options drop).trace) := by
  intro h1 h2
  simp [import_osm_data, h1, h2]

/-- C9 witness: with drop set, a run that raises no-data-imported drops
no table and unlinks no file. -/
theorem import_osm_data_noData_no_cleanup_witness :
    (import_osm_data emptyPlaceWorld "planet.osm" sampleOptions
        true).result = Except.error UsageError.noDataImported ∧
    ImportAction.dropTable "planet_osm_nodes" ∉
      (import_osm_data emptyPlaceWorld "planet.osm" sampleOptions
        true).trace ∧
    ImportAction.unlink "nodes.cache" ∉
      (import_osm_data emptyPlaceWorld "planet.osm" sampleOptions
        true).trace :=
  ⟨(import_osm_data_noData_no_cleanup emptyPlaceWorld "planet.osm"
      sampleOptions true rfl rfl).1,
   (import_osm_data_noData_no_cleanup emptyPlaceWorld "planet.osm"
      sampleOptions true rfl rfl).2.1 "planet_osm_nodes",
   (import_osm_data_noData_no_cleanup emptyPlaceWorld "planet.osm"
      sampleOptions true rfl rfl).2.2 "nodes.cache"⟩

/-- C5: if the options record has no flatnode file and cache size 0, then
after the call the cache size field is strictly positive (filled by the
estimator); if a flatnode file is already set, the cache size field is
left unchanged. -/
theorem import_osm_data_cache_fill (w : ImportWorld) (osm_file : String)
    (o : Osm2pgsqlOptions) (drop : Bool) :
    (o.flatnode_file = "" → o.osm2pgsql_cache = 0 →
      0 < (import_osm_data w osm_file o drop).finalOptions.osm2pgsql_cache) ∧
    (o.flatnode_file ≠ "" →
      (import_osm_data w osm_file o drop).finalOptions.osm2pgsql_cache =
        o.osm2pgsql_cache) := by
  rw [import_osm_data_finalOptions]
  constructor
  · intro hf hc
    have h : (finalizeOptions w osm_file o).osm2pgsql_cache =
        estimateCacheSize w.memAvailable w.memCached
          (w.fileSize osm_file) := by
      simp only [finalizeOptions, hf, hc]
      rfl
    rw [h, estimateCacheSize_def]
    exact Nat.succ_pos _
  · intro hf
    simp [finalizeOptions, isEmpty_false_of_ne _ hf]

/-- C5 witness: with no flatnode file and unset cache the final cache is
positive; with a flatnode file set the cache value is untouched. -/
theorem import_osm_data_cache_fill_witness :
    0 < (import_osm_data goodWorld "planet.osm" sampleOptions
        false).finalOptions.osm2pgsql_cache ∧
    (import_osm_data goodWorld "planet.osm"
        ⟨"", false, 0, "nodes.cache", 0, "dbname=nominatim"⟩
        false).finalOptions.osm2pgsql_cache = 0 :=
  ⟨(import_osm_data_cache_fill goodWorld "planet.osm" sampleOptions
      false).1 rfl rfl,
   (import_osm_data_cache_fill goodWorld "planet.osm"
      ⟨"", false, 0, "nodes.cache", 0, "dbname=nominatim"⟩ false).2
      (by decide)⟩

/-- C6: import_osm_data mutates the options record before delegating to
the external importer: the input-file field equals the given file, the
append flag is false, the thread count is 1, the cache-size field is
filled by the estimator exactly when neither a cache size nor a flatnode
file was configured, and the record handed to the importer is this
mutated one. -/
theorem import_osm_data_mutation (w : ImportWorld) (osm_file : String)
    (o : Osm2pgsqlOptions) (drop : Bool) :
    ((finalizeOptions w osm_file o).import_file = osm_file ∧
     (finalizeOptions w osm_file o).append = false ∧
     (finalizeOptions w osm_file o).threads = 1 ∧
     (finalizeOptions w osm_file o).flatnode_file = o.flatnode_file ∧
     (finalizeOptions w osm_file o).dsn = o.dsn) ∧
    (o.flatnode_file = "" → o.osm2pgsql_cache = 0 →
      (finalizeOptions w osm_file o).osm2pgsql_cache =
        estimateCacheSize w.memAvailable w.memCached
          (w.fileSize osm_file)) ∧
    (o.flatnode_file ≠ "" ∨ o.osm2pgsql_cache ≠ 0 →
      (finalizeOptions w osm_file o).osm2pgsql_cache =
        o.osm2pgsql_cache) ∧
    (import_osm_data w osm_file o drop).trace.head? =
      some (ImportAction.runOsm2pgsql (finalizeOptions w osm_file o)) := by
  refine ⟨?_, ?_, ?_, ?_⟩
  · simp only [finalizeOptions]
    split <;> simp
  · intro hf hc
    simp only [finalizeOptions, hf, hc]
    rfl
  · intro h
    rcases h with hf | hc
    · simp [finalizeOptions, isEmpty_false_of_ne _ hf]
    · simp only [finalizeOptions]
      split
      · rename_i hcond
        rw [Bool.and_eq_true] at hcond
        exact absurd (eq_of_beq hcond.2) hc
      · rfl
  · unfold import_osm_data
    split
    · rfl
    · split <;> rfl

/-- C6 witness: on a concrete record with unset cache and no flatnode
file, the mutated record has the input file, append false, threads 1 and
the estimator cache size, and is the one delegated to the importer. -/
theorem import_osm_data_mutation_witness :
    ((finalizeOptions goodWorld "planet.osm" sampleOptions).import_file =
        "planet.osm" ∧
     (finalizeOptions goodWorld "planet.osm" sampleOptions).append =
        false ∧
     (finalizeOptions goodWorld "planet.osm" sampleOptions).threads = 1 ∧
     (finalizeOptions goodWorld "planet.osm"
        sampleOptions).flatnode_file = sampleOptions.flatnode_file ∧
     (finalizeOptions goodWorld "planet.osm" sampleOptions).dsn =
        sampleOptions.dsn) ∧
    (finalizeOptions goodWorld "planet.osm" sampleOptions).osm2pgsql_cache
      = estimateCacheSize goodWorld.memAvailable goodWorld.memCached
          (goodWorld.fileSize "planet.osm") ∧
    (import_osm_data goodWorld "planet.osm" sampleOptions
        false).trace.head? =
      some (ImportAction.runOsm2pgsql
        (finalizeOptions goodWorld "planet.osm" sampleOptions)) :=
  ⟨(import_osm_data_mutation goodWorld "planet.osm" sampleOptions
      false).1,
   (import_osm_data_mutation goodWorld "planet.osm" sampleOptions
      false).2.1 rfl rfl,
   (import_osm_data_mutation goodWorld "planet.osm" sampleOptions
      false).2.2.2⟩

/-- C7: create_db performs its three steps in order as hard gates: a
non-zero createdb exit yields the creation-failed error with no further
step; otherwise a too-old server version yields the version-too-old error
with no role check; and only when a read-only role name was supplied, a
zero count in the role catalog yields the missing-role error. -/
theorem create_db_gates (req : VersionTuple) (w : CreateDbWorld)
    (rouser : Option String) :
    (w.createdbReturncode ≠ 0 →
      create_db req w rouser =
        ([DbStep.runCreatedb], Except.error UsageError.creationFailed)) ∧
    (w.createdbReturncode = 0 → tupleLt w.serverVersion req = true →
      create_db req w rouser =
        ([DbStep.runCreatedb, DbStep.queryServerVersion],
         Except.error UsageError.postgresqlTooOld)) ∧
    (w.createdbReturncode = 0 → tupleLt w.serverVersion req = false →
      rouser = none →
      create_db req w rouser =
        ([DbStep.runCreatedb, DbStep.queryServerVersion],
         Except.ok ())) ∧
    (∀ name, w.createdbReturncode = 0 →
      tupleLt w.serverVersion req = false → rouser = some name →
      w.userCount name = 0 →
      create_db req w rouser =
        ([DbStep.runCreatedb, DbStep.queryServerVersion,
          DbStep.queryUserCount name],
         Except.error UsageError.missingReadOnlyUser)) := by
  refine ⟨?_, ?_, ?_, ?_⟩
  · intro h
    simp [create_db, h]
  · intro h0 hv
    simp [create_db, h0, hv]
  · intro h0 hv hr
    subst hr
    simp [create_db, h0, hv]
  · intro name h0 hv hr hc
    subst hr
    simp [create_db, h0, hv, hc]

/-- C7 witness: a failing createdb yields only the creation-failed error,
and a missing read-only role on a new enough server yields the
missing-role error after the version query. -/
theorem create_db_gates_witness :
    create_db (9, 3) ⟨1, (10, 0), fun _ => 1⟩ (some "www-data") =
      ([DbStep.runCreatedb], Except.error UsageError.creationFailed) ∧
    create_db (9, 3) ⟨0, (10, 0), fun _ => 0⟩ (some "www-data") =
      ([DbStep.runCreatedb, DbStep.queryServerVersion,
        DbStep.queryUserCount "www-data"],
       Except.error UsageError.missingReadOnlyUser) :=
  ⟨(create_db_gates (9, 3) ⟨1, (10, 0), fun _ => 1⟩
      (some "www-data")).1 (by decide),
   (create_db_gates (9, 3) ⟨0, (10, 0), fun _ => 0⟩
      (some "www-data")).2.2.2 "www-data" rfl (by decide) rfl rfl⟩

/-- Creating an extension that is already present changes nothing. -/
theorem createExtensionIfNotExists_of_mem {e : String} {s : DbState}
    (h : e ∈ s.extensions) : createExtensionIfNotExists e s = s := by
  simp [createExtensionIfNotExists, h]

/-- After create-if-missing, the extension is present. -/
theorem mem_createExtensionIfNotExists (e : String) (s : DbState) :
    e ∈ (createExtensionIfNotExists e s).extensions := by
  unfold createExtensionIfNotExists
  split
  · assumption
  · exact List.mem_cons_self _ _

/-- Create-if-missing preserves already present extensions. -/
theorem mem_createExtensionIfNotExists_mono {x : String} (e : String)
    {s : DbState} (h : x ∈ s.extensions) :
    x ∈ (createExtensionIfNotExists e s).extensions := by
  unfold createExtensionIfNotExists
  split
  · exact h
  · exact List.mem_cons_of_mem _ h

/-- C8: running setup_extensions twice in sequence on the same database
produces no error on the second run (extension creation is
create-if-missing, hence idempotent), and both runs observe the same
reported PostGIS version. -/
theorem setup_extensions_idempotent (req : VersionTuple) (s s1 : DbState) :
    setup_extensions req s = Except.ok s1 →
    setup_extensions req s1 = Except.ok s1 ∧
    s1.postgisVersion = s.postgisVersion := by
  intro h
  simp only [setup_extensions] at h
  by_cases hv : tupleLt (createExtensionIfNotExists "postgis"
      (createExtensionIfNotExists "hstore" s)).postgisVersion req = true
  · rw [if_pos hv] at h
    cases h
  · rw [if_neg hv] at h
    injection h with hs
    subst hs
    have hmem1 : "hstore" ∈ (createExtensionIfNotExists "postgis"
        (createExtensionIfNotExists "hstore" s)).extensions :=
      mem_createExtensionIfNotExists_mono "postgis"
        (mem_createExtensionIfNotExists "hstore" s)
    have hmem2 : "postgis" ∈ (createExtensionIfNotExists "postgis"
        (createExtensionIfNotExists "hstore" s)).extensions :=
      mem_createExtensionIfNotExists "postgis" _
    constructor
    · simp only [setup_extensions]
      rw [createExtensionIfNotExists_of_mem hmem1,
        createExtensionIfNotExists_of_mem hmem2, if_neg hv]
    · rw [createExtensionIfNotExists_postgisVersion,
        createExtensionIfNotExists_postgisVersion]

/-- C8 witness: a database already carrying both extensions passes a
second setup run unchanged and reports the same PostGIS version. -/
theorem setup_extensions_idempotent_witness :
    setup_extensions (2, 2) ⟨["postgis", "hstore"], (2, 4)⟩ =
      Except.ok ⟨["postgis", "hstore"], (2, 4)⟩ ∧
    (⟨["postgis", "hstore"], (2, 4)⟩ : DbState).postgisVersion =
      (⟨[], (2, 4)⟩ : DbState).postgisVersion :=
  setup_extensions_idempotent (2, 2) ⟨[], (2, 4)⟩
    ⟨["postgis", "hstore"], (2, 4)⟩ (by rfl)

end DatabaseImport
